import Mathlib

/-!
Verification of the buddy CLI's pool / artifact-resolution logic.

The definitions below are a shallow embedding of the TypeScript sources
`src/index.ts` (the CLI, given as `src/unnamed/part_000`) and
`src/config.ts`.  I/O is made explicit: the filesystem is a predicate
`fs : String → Bool` modelling `Bun.file(p).exists()`, the per-pool
configuration resource (`<poolRoot>/.buddy/config.json`) is a
`ConfigResource` value, the current directory and home directory are
string parameters, and the answer to the interactive overwrite prompt is
a boolean parameter.
-/

namespace Buddy

/-- A runtime JSON/JS value, as far as the configuration loader can
observe one.  `jnull` is JSON `null`; a field that is absent from the
configuration object is represented as `none : Option JVal`
(JS `undefined`). -/
inductive JVal where
  | jnull
  | jstr (s : String)
  | jnum (n : Int)
  | jbool (b : Bool)
  deriving DecidableEq, Repr

/-- JS template-literal interpolation of a value (only exact on the
values modelled here; strings interpolate as themselves). -/
def JVal.toJs : JVal → String
  | .jnull => "null"
  | .jstr s => s
  | .jnum n => toString n
  | .jbool b => if b then "true" else "false"

/-- JS truthiness of a (defined) value: `null`, `""`, `0` and `false`
are falsy. -/
def JVal.truthy : JVal → Bool
  | .jnull => false
  | .jstr s => s ≠ ""
  | .jnum n => n ≠ 0
  | .jbool b => b

/-- The parsed top-level JSON object of a `.buddy/config.json` resource,
restricted to the five field names the loader reads.  `none` models an
absent field (JS `undefined`). -/
structure JObj where
  agents : Option JVal := none
  commands : Option JVal := none
  context : Option JVal := none
  extension : Option JVal := none
  pools : Option JVal := none
  deriving DecidableEq, Repr

/-- JS nullish coalescing `v ?? d`: the default is taken exactly when
`v` is `undefined` (absent) or `null`. -/
def nullish (v : Option JVal) (d : JVal) : JVal :=
  match v with
  | none => d
  | some .jnull => d
  | some x => x

/-- `BuddyConfig` from `src/config.ts`.  The directory fields hold the
runtime values the constructor received (JS performs no shape check on
them), `extension`/`pools` may be `undefined` (`none`). -/
structure BuddyConfig where
  agents : JVal
  commands : JVal
  context : JVal
  extension : Option JVal
  pools : Option JVal
  deriving DecidableEq, Repr

/-- `BuddyConfig.new()`: the documented default configuration. -/
def BuddyConfig.new : BuddyConfig :=
  { agents := .jstr ""
    commands := .jstr "commands"
    context := .jstr "shared"
    extension := none
    pools := none }

/-- What `loadBuddyConfigFrom` finds at `<dirPath>/.buddy/config.json`:
the resource is absent, present but not valid JSON (`.json()` throws),
or present and parsed to an object. -/
inductive ConfigResource where
  | absent
  | malformed
  | parsed (o : JObj)
  deriving DecidableEq, Repr

/-- `loadBuddyConfigFrom` (src/config.ts lines 24-43).  An absent
resource skips the read; a parse failure is caught by the surrounding
`try`/`catch` and falls through to `BuddyConfig.new()`; a parsed object
has `??`-defaults applied to `agents`/`commands`/`context` and passes
`extension`/`pools` through unchanged. -/
def loadBuddyConfigFrom : ConfigResource → BuddyConfig
  | .absent => BuddyConfig.new
  | .malformed => BuddyConfig.new
  | .parsed o =>
    { agents := nullish o.agents (.jstr "")
      commands := nullish o.commands (.jstr "commands")
      context := nullish o.context (.jstr "shared")
      extension := o.extension
      pools := o.pools }

/-- `findAgentFile` (src/index.ts lines 350-383).  `fs` models
`Bun.file(p).exists()`.  With a configured extension it tries
`<base>/<path>.<ext>` then `<base>/<path>`; otherwise `.md`, `.txt`,
then no extension; the first existing candidate is returned. -/
def findAgentFile (fs : String → Bool) (basePath agentPath : String) :
    Option String → Option String
  | some ext =>
    let withExt := basePath ++ "/" ++ agentPath ++ "." ++ ext
    if fs withExt then some withExt
    else
      let noExt := basePath ++ "/" ++ agentPath
      if fs noExt then some noExt else none
  | none =>
    let withMd := basePath ++ "/" ++ agentPath ++ ".md"
    if fs withMd then some withMd
    else
      let withTxt := basePath ++ "/" ++ agentPath ++ ".txt"
      if fs withTxt then some withTxt
      else
        let noExt := basePath ++ "/" ++ agentPath
        if fs noExt then some noExt else none

/-- The ordered list of file names tried for a search root `fullPath`,
as a function of the configured extension. -/
def triedNames (fullPath : String) : Option String → List String
  | some ext => [fullPath ++ "." ++ ext, fullPath]
  | none => [fullPath ++ ".md", fullPath ++ ".txt", fullPath]

/-- The ordered candidate list of the extension-fallback search. -/
def candidates (basePath agentPath : String) (ext : Option String) : List String :=
  triedNames (basePath ++ "/" ++ agentPath) ext

/-- C1: for every base directory, relative artifact path and extension
setting, `findAgentFile` returns exactly the first element of the
ordered candidate list (`.{E}` then bare when an extension `E` is
configured; `.md`, `.txt`, then bare otherwise) that exists, and `none`
when no candidate exists — i.e. it is `List.find?` of the existence
predicate over the candidate list. -/
theorem findAgentFile_tries_candidates_in_order
    (fs : String → Bool) (basePath agentPath : String) (ext : Option String) :
    findAgentFile fs basePath agentPath ext = (candidates basePath agentPath ext).find? fs := by
  cases ext with
  | some e =>
    simp only [findAgentFile, candidates, triedNames, List.find?]
    by_cases h1 : fs (basePath ++ "/" ++ agentPath ++ "." ++ e) <;>
      by_cases h2 : fs (basePath ++ "/" ++ agentPath) <;>
      simp [h1, h2]
  | none =>
    simp only [findAgentFile, candidates, triedNames, List.find?]
    by_cases h1 : fs (basePath ++ "/" ++ agentPath ++ ".md") <;>
      by_cases h2 : fs (basePath ++ "/" ++ agentPath ++ ".txt") <;>
      by_cases h3 : fs (basePath ++ "/" ++ agentPath) <;>
      simp [h1, h2, h3]

/-- C3: a configuration resource that exists but fails to parse raises
no error in the model (the loader is total) and yields exactly the same
configuration as an absent resource, namely the defaults `agents = ""`,
`commands = "commands"`, `context = "shared"`, `extension` absent; hence
the extension-fallback search behaves identically in the two cases. -/
theorem malformed_config_defaults :
    loadBuddyConfigFrom .malformed = loadBuddyConfigFrom .absent ∧
    loadBuddyConfigFrom .malformed = BuddyConfig.new ∧
    (loadBuddyConfigFrom .malformed).agents = .jstr "" ∧
    (loadBuddyConfigFrom .malformed).commands = .jstr "commands" ∧
    (loadBuddyConfigFrom .malformed).context = .jstr "shared" ∧
    (loadBuddyConfigFrom .malformed).extension = none ∧
    ∀ (fs : String → Bool) (basePath agentPath : String),
      findAgentFile fs basePath agentPath
          ((loadBuddyConfigFrom .malformed).extension.map JVal.toJs) =
        findAgentFile fs basePath agentPath
          ((loadBuddyConfigFrom .absent).extension.map JVal.toJs) :=
  ⟨rfl, rfl, rfl, rfl, rfl, rfl, fun _ _ _ => rfl⟩

/-- Node `path.join` of two segments, for the argument shapes this CLI
produces: plain relative/absolute segments without `.`/`..` components,
leading separators or doubled separators, where `join` is plain
concatenation with `/` and an empty segment is dropped.  (Node
additionally normalizes the result and returns `"."` when everything is
empty; neither case is reachable from the call sites modelled here.) -/
def pj (a b : String) : String :=
  if a = "" then b else if b = "" then a else a ++ "/" ++ b

/-- Node `path.join` of three segments. -/
def pj3 (a b c : String) : String := pj (pj a b) c

/-- Node `path.join` of four segments. -/
def pj4 (a b c d : String) : String := pj (pj3 a b c) d

/-- `getBuddyBasePath` (src/index.ts lines 438-440):
`customPath || join(homedir(), ".buddy")`.  JS `||` also rejects the
empty string. -/
def getBuddyBasePath (home : String) : Option String → String
  | some s => if s = "" then pj home ".buddy" else s
  | none => pj home ".buddy"

/-- JS `String.prototype.split` with a one-character separator,
modelled on the character list of the string. -/
def jsSplit (sep : Char) (s : String) : List String :=
  (s.data.splitOn sep).map String.mk

/-- JS `Array.prototype.join`: the empty array joins to `""`, otherwise
elements are interleaved with the separator. -/
def jsJoin (sep : String) : List String → String
  | [] => ""
  | [a] => a
  | a :: b :: t => a ++ sep ++ jsJoin sep (b :: t)

/-- Result of `parseImportSource`. -/
structure ParsedSource where
  repoName : String
  agentPath : String
  filename : String
  deriving DecidableEq, Repr

/-- `parseImportSource` (src/index.ts lines 391-398):
`parts = source.split("/")`; `repoName = parts[0] || "unknown-repo"`;
`agentPath = parts.slice(1).join("/")`;
`filename = parts[parts.length - 1] || "unknown-agent"`.
`parts` is never empty, and the `||` fallbacks fire exactly on the empty
string. -/
def parseImportSource (source : String) : ParsedSource :=
  let parts := jsSplit '/' source
  let repoName := match parts.head? with
    | some s => if s = "" then "unknown-repo" else s
    | none => "unknown-repo"
  let agentPath := jsJoin "/" (parts.drop 1)
  let filename := match parts.getLast? with
    | some s => if s = "" then "unknown-agent" else s
    | none => "unknown-agent"
  ⟨repoName, agentPath, filename⟩

/-- URL normalization in `addFromGitRepo` (src/index.ts line 704):
`u.replace(/\.git$/, "").toLowerCase()` — strip one trailing `.git`
(the regex is case-sensitive and anchored), then lowercase.  Modelled
on the character list; character-wise `Char.toLower` is exact on the
ASCII strings in scope. -/
def normalizeUrl (u : String) : String :=
  let d := if List.isSuffixOf [ '.', 'g', 'i', 't' ] u.data
    then u.data.take (u.data.length - 4) else u.data
  String.mk (d.map Char.toLower)

/-- The observable state of the candidate pool directory inspected by
`addFromGitRepo`: whether `directoryExists(repoPath)` holds (src/index.ts
lines 332-343: the glob scan succeeds exactly on an existing, accessible
directory), whether `<repoPath>/.git/config` exists, and the trimmed
output of `git config --get remote.origin.url` there (assumed to
succeed when consulted). -/
structure RepoDirState where
  dirExists : Bool
  gitConfigExists : Bool
  origin : String
  deriving DecidableEq, Repr

/-- The action `addFromGitRepo` takes on a repository directory. -/
inductive GitAddAction where
  | clone
  | pull
  | failNotGitRepo
  | failCollision
  deriving DecidableEq, Repr

/-- Branch structure of `addFromGitRepo` (src/index.ts lines 684-723):
no directory → clone; directory without `.git/config` → error exit;
origins equal after normalization → pull; otherwise → collision error
exit. -/
def addFromGitRepoAction (st : RepoDirState) (url : String) : GitAddAction :=
  if st.dirExists then
    if !st.gitConfigExists then .failNotGitRepo
    else if normalizeUrl st.origin = normalizeUrl url then .pull
    else .failCollision
  else .clone

/-- Observable outcome of one `addFromGitRepo` run (on the branches
where the external `git` invocation itself succeeds): the
`console.error` lines emitted, the process exit status, and whether the
run mutates the pool directory (clone or pull). -/
structure GitAddOutcome where
  errLines : List String
  exitCode : Nat
  mutates : Bool
  deriving DecidableEq, Repr

/-- The outcome of `addFromGitRepo` for each branch, with the exact
error lines of src/index.ts lines 694-695 and 713-716. -/
def addFromGitRepoOutcome (st : RepoDirState) (url repoName : String) : GitAddOutcome :=
  match addFromGitRepoAction st url with
  | .clone => ⟨[], 0, true⟩
  | .pull => ⟨[], 0, true⟩
  | .failNotGitRepo =>
    ⟨["✗ Directory \x27" ++ repoName ++ "\x27 exists but is not a git repository"], 1, false⟩
  | .failCollision =>
    ⟨["✗ Repository name \x27" ++ repoName ++ "\x27 already exists in pool",
      "   Existing origin: " ++ st.origin,
      "   Requested URL: " ++ url], 1, false⟩

/-- An outcome reports both origins when its error lines include the
`Existing origin` line for the recorded origin and the `Requested URL`
line for the requested URL. -/
def reportsBothOrigins (o : GitAddOutcome) (origin url : String) : Prop :=
  ("   Existing origin: " ++ origin) ∈ o.errLines ∧
  ("   Requested URL: " ++ url) ∈ o.errLines

instance (o : GitAddOutcome) (origin url : String) :
    Decidable (reportsBothOrigins o origin url) := by
  unfold reportsBothOrigins; infer_instance

/-- Result of `getAddPaths` / `getAddPathsWithConfig`. -/
structure AddPaths where
  localAgentsPath : String
  sourcePath : String
  destPath : String
  deriving DecidableEq, Repr

/-- `getAddPaths` (src/index.ts lines 442-453).  Note the destination of
an added agent is `<buddy>/pools/local/<name>.md` — directly in the
local pool root. -/
def getAddPaths (home cwd agentName : String) (basePath : Option String) : AddPaths :=
  let buddyPath := getBuddyBasePath home basePath
  let localAgentsPath := pj3 buddyPath "pools" "local"
  let claudeSourcePath := pj4 cwd ".claude" "agents" (agentName ++ ".md")
  let buddyDestPath := pj localAgentsPath (agentName ++ ".md")
  ⟨localAgentsPath, claudeSourcePath, buddyDestPath⟩

/-- `getAddPathsWithConfig` (src/index.ts lines 494-507), used by
`add --claude-personal`: same destination, source from
`~/.claude/agents/` when `usePersonalClaude`. -/
def getAddPathsWithConfig (home cwd agentName : String)
    (usePersonalClaude : Bool) (basePath : Option String) : AddPaths :=
  let buddyPath := getBuddyBasePath home basePath
  let localAgentsPath := pj3 buddyPath "pools" "local"
  let claudeSourcePath :=
    if usePersonalClaude then pj4 home ".claude" "agents" (agentName ++ ".md")
    else pj4 cwd ".claude" "agents" (agentName ++ ".md")
  let buddyDestPath := pj localAgentsPath (agentName ++ ".md")
  ⟨localAgentsPath, claudeSourcePath, buddyDestPath⟩

/-- Source and destination of `addClaudeCommand` (src/index.ts lines
802-806): destination `<buddy>/pools/local/commands/<name>.md`. -/
def addClaudeCommandPaths (home cwd commandName : String) : String × String :=
  let buddyPath := getBuddyBasePath home none
  let localCommandsPath := pj4 buddyPath "pools" "local" "commands"
  (pj4 cwd ".claude" "commands" (commandName ++ ".md"),
   pj localCommandsPath (commandName ++ ".md"))

/-- Source and destination of `addClaudeShared` (src/index.ts lines
830-834): destination `<buddy>/pools/local/shared/<name>.md`. -/
def addClaudeSharedPaths (home cwd sharedName : String) : String × String :=
  let buddyPath := getBuddyBasePath home none
  let localSharedPath := pj4 buddyPath "pools" "local" "shared"
  (pj4 cwd ".claude" "shared" (sharedName ++ ".md"),
   pj localSharedPath (sharedName ++ ".md"))

/-- Result of `getImportPaths` / `getImportPathsWithConfig`. -/
structure ImportPaths where
  sourcePath : Option String
  destPath : String
  destLocation : String
  extension : Option JVal
  agentsConfigPath : JVal
  deriving Repr

/-- `getImportPaths` (src/index.ts lines 455-481).  `res` is the
configuration resource found at `<buddy>/pools/<repoName>/.buddy/config.json`.
The search root is `join(repoPath, repoConfig.agents)` (Node `join`
throws on a non-string argument, so the function only returns when the
loaded `agents` value is a string, on which `JVal.toJs` is the
identity). -/
def getImportPaths (home cwd : String) (fs : String → Bool) (res : ConfigResource)
    (repoName agentPath filename : String) (toClaudeProject : Bool)
    (basePath : Option String) : ImportPaths :=
  let buddyPath := getBuddyBasePath home basePath
  let repoPath := pj3 buddyPath "pools" repoName
  let repoConfig := loadBuddyConfigFrom res
  let agentBasePath := pj repoPath repoConfig.agents.toJs
  let buddySourcePath := findAgentFile fs agentBasePath agentPath (repoConfig.extension.map JVal.toJs)
  let destPath :=
    if toClaudeProject then pj4 cwd ".claude" "agents" (filename ++ ".md")
    else pj cwd (filename ++ ".md")
  let destLocation := if toClaudeProject then ".claude/agents/" else "current directory"
  ⟨buddySourcePath, destPath, destLocation, repoConfig.extension, repoConfig.agents⟩

/-- `getImportPathsWithConfig` (src/index.ts lines 509-541): as
`getImportPaths`, with a third destination convention
`~/.claude/agents/` selected by `toClaudePersonal` (checked first). -/
def getImportPathsWithConfig (home cwd : String) (fs : String → Bool) (res : ConfigResource)
    (repoName agentPath filename : String) (toClaudeProject toClaudePersonal : Bool)
    (basePath : Option String) : ImportPaths :=
  let buddyPath := getBuddyBasePath home basePath
  let repoPath := pj3 buddyPath "pools" repoName
  let repoConfig := loadBuddyConfigFrom res
  let agentBasePath := pj repoPath repoConfig.agents.toJs
  let buddySourcePath := findAgentFile fs agentBasePath agentPath (repoConfig.extension.map JVal.toJs)
  let destPath :=
    if toClaudePersonal then pj4 home ".claude" "agents" (filename ++ ".md")
    else if toClaudeProject then pj4 cwd ".claude" "agents" (filename ++ ".md")
    else pj cwd (filename ++ ".md")
  let destLocation :=
    if toClaudePersonal then "~/.claude/agents/"
    else if toClaudeProject then ".claude/agents/"
    else "current directory"
  ⟨buddySourcePath, destPath, destLocation, repoConfig.extension, repoConfig.agents⟩

/-- The `✗ Agent file not found. Tried: ...` message of
`importLocalAgent` (src/index.ts lines 878-885):
`fullPath = agentsConfigPath ? join(agentsConfigPath, agentPath) : agentPath`,
then the tried names interpolated in search order. -/
def triedMessage (agentsCfg : JVal) (agentPath : String) (ext : Option JVal) : String :=
  let fullPath := if agentsCfg.truthy then pj agentsCfg.toJs agentPath else agentPath
  match ext with
  | some e => "✗ Agent file not found. Tried: " ++ fullPath ++ "." ++ e.toJs ++ ", " ++ fullPath
  | none => "✗ Agent file not found. Tried: " ++ fullPath ++ ".md, " ++ fullPath ++ ".txt, " ++ fullPath

/-- Observable outcome of one command run: `console.error` lines,
`console.log` lines, the final process exit status, and the copy
performed (source read, destination written), if any. -/
structure RunOutcome where
  errLines : List String
  outLines : List String
  exitCode : Nat
  wrote : Option (String × String)
  deriving Repr

/-- `importLocalAgent` (src/index.ts lines 875-902).  `overwriteOk` is
the user's answer to the overwrite prompt.  On the not-found branch the
function prints the `Tried:` message and `return`s — there is no
`process.exit(1)` there, so the process terminates with status 0. -/
def importLocalAgentRun (home cwd : String) (fs : String → Bool) (res : ConfigResource)
    (repoName agentPath filename : String) (toClaudeProject : Bool)
    (overwriteOk : Bool) : RunOutcome :=
  let paths := getImportPaths home cwd fs res repoName agentPath filename toClaudeProject none
  match paths.sourcePath with
  | none =>
    { errLines := [triedMessage paths.agentsConfigPath agentPath paths.extension]
      outLines := [], exitCode := 0, wrote := none }
  | some src =>
    if fs paths.destPath && !overwriteOk then
      { errLines := [], outLines := ["✓ Operation cancelled"], exitCode := 0, wrote := none }
    else
      { errLines := []
        outLines := ["✓ Imported " ++ filename ++ ".md to " ++ paths.destLocation]
        exitCode := 0, wrote := some (src, paths.destPath) }

/-- The context search root and extension setting chosen by
`toolCommand` (src/index.ts lines 944-958): the pool name `local` gets
the fixed path `<buddy>/pools/local/shared` with no extension and no
configuration load; any other pool loads its configuration and uses
`join(repoPath, config.context)`. -/
def toolContext (home : String) (res : ConfigResource) (repoName : String) :
    String × Option JVal :=
  if repoName = "local" then
    (pj4 (getBuddyBasePath home none) "pools" "local" "shared", none)
  else
    let repoPath := pj3 (getBuddyBasePath home none) "pools" repoName
    let config := loadBuddyConfigFrom res
    (pj repoPath config.context.toJs, config.extension)

/-- Observable outcome of one `tool` run: the `error` field of the JSON
record on stderr (if any), the `content` field of the JSON record on
stdout (if any), and the process exit status. -/
structure ToolOutcome where
  errorMsg : Option String
  content : Option String
  exitCode : Nat
  deriving Repr

/-- `toolCommand` (src/index.ts lines 938-991).  `read` models
`Bun.file(p).text()`.  On the not-found branch the emitted `error`
field lists the tried names relative to the context directory
(`fullPath = parsed.agentPath`) and the process exits with status 1. -/
def toolCommandRun (home : String) (fs : String → Bool) (res : ConfigResource)
    (read : String → String) (source : String) : ToolOutcome :=
  let parsed := parseImportSource source
  let ctx := toolContext home res parsed.repoName
  match findAgentFile fs ctx.1 parsed.agentPath (ctx.2.map JVal.toJs) with
  | none =>
    let fullPath := parsed.agentPath
    match ctx.2 with
    | some e =>
      ⟨some ("Context file not found. Tried: " ++ fullPath ++ "." ++ e.toJs ++ ", " ++ fullPath),
       none, 1⟩
    | none =>
      ⟨some ("Context file not found. Tried: " ++ fullPath ++ ".md, " ++ fullPath ++ ".txt, " ++ fullPath),
       none, 1⟩
  | some fp => ⟨none, some (read fp), 0⟩

/-- The directory enumerated by `listCommand` (src/index.ts lines
993-1037): the pool name `local` gets fixed paths under
`<buddy>/pools/local` (the pool root itself for agents) with no
configuration load; any other pool loads its configuration.
`commands` is checked before `shared`, as in the source. -/
def listPath (home ns : String) (res : ConfigResource) (commands shared : Bool) : String :=
  let buddyPath := getBuddyBasePath home none
  if ns = "local" then
    let basePath := pj3 buddyPath "pools" "local"
    if commands then pj basePath "commands"
    else if shared then pj basePath "shared"
    else basePath
  else
    let repoPath := pj3 buddyPath "pools" ns
    let config := loadBuddyConfigFrom res
    if commands then pj repoPath config.commands.toJs
    else if shared then pj repoPath config.context.toJs
    else pj repoPath config.agents.toJs

/-! String helpers used by the proofs. -/

theorem append_right_ne_empty (s t : String) (ht : t ≠ "") : s ++ t ≠ "" := by
  intro h
  apply ht
  apply String.ext
  have hd := congrArg String.data h
  rw [String.data_append] at hd
  exact (List.append_eq_nil.mp hd).2

theorem append_left_ne_empty (s t : String) (hs : s ≠ "") : s ++ t ≠ "" := by
  intro h
  apply hs
  apply String.ext
  have hd := congrArg String.data h
  rw [String.data_append] at hd
  exact (List.append_eq_nil.mp hd).1

theorem string_append_assoc (a b c : String) : (a ++ b) ++ c = a ++ (b ++ c) := by
  apply String.ext
  simp [String.data_append]

theorem pj_of_ne (a b : String) (ha : a ≠ "") (hb : b ≠ "") : pj a b = a ++ "/" ++ b := by
  simp [pj, ha, hb]

theorem pj_empty_right (a : String) (ha : a ≠ "") : pj a "" = a := by
  simp [pj, ha]

theorem pj_ne_empty (a b : String) (hb : b ≠ "") : pj a b ≠ "" := by
  by_cases ha : a = ""
  · simp [pj, ha, hb]
  · rw [pj_of_ne a b ha hb]
    exact append_right_ne_empty _ _ hb

theorem getBuddyBasePath_ne_empty (home : String) (bp : Option String) :
    getBuddyBasePath home bp ≠ "" := by
  cases bp with
  | none => exact pj_ne_empty _ _ (by decide)
  | some s =>
    by_cases h : s = "" <;> simp [getBuddyBasePath, h]
    exact pj_ne_empty _ _ (by decide)

/-- Fusion of a left-associated append of two literals. -/
theorem lfuse (a x y z : String) (h : x ++ y = z) : (a ++ x) ++ y = a ++ z := by
  subst h
  exact string_append_assoc a x y

/-- `pj3 base "pools" pool` spelled out flat. -/
theorem pj3_pools (base pool : String) (hbase : base ≠ "") (hpool : pool ≠ "") :
    pj3 base "pools" pool = base ++ "/pools/" ++ pool := by
  unfold pj3
  rw [pj_of_ne base "pools" hbase (by decide)]
  rw [pj_of_ne _ pool (append_right_ne_empty _ _ (by decide)) hpool]
  rw [lfuse base "/" "pools" "/pools" (by decide)]
  rw [lfuse base "/pools" "/" "/pools/" (by decide)]

/-! C6 / C7 / C2: the `addFromGitRepo` state machine. -/

/-- C6: when the pool directory exists, carries the version-control
marker, and its recorded origin equals the requested URL after
normalization (strip one trailing `.git`, lowercase), `addFromGitRepo`
takes the pull/update path — never the collision path. -/
theorem matching_origin_pulls (st : RepoDirState) (url : String)
    (hd : st.dirExists = true) (hg : st.gitConfigExists = true)
    (h : normalizeUrl st.origin = normalizeUrl url) :
    addFromGitRepoAction st url = .pull := by
  simp [addFromGitRepoAction, hd, hg, h]

/-- Witness for `matching_origin_pulls`: a clone of
`https://github.com/User/Repo.git` being re-acquired as
`https://github.com/user/repo` pulls. -/
theorem matching_origin_pulls_witness :
    normalizeUrl "https://github.com/User/Repo.git" = normalizeUrl "https://github.com/user/repo" ∧
    addFromGitRepoAction ⟨true, true, "https://github.com/User/Repo.git"⟩
      "https://github.com/user/repo" = .pull :=
  ⟨by decide,
   matching_origin_pulls ⟨true, true, "https://github.com/User/Repo.git"⟩
     "https://github.com/user/repo" rfl rfl (by decide)⟩

/-- C7 counterexample: a directory that exists but contains no
version-control marker does NOT take the fresh-clone action — it takes
the `not a git repository` error path. -/
theorem existing_non_git_dir_not_cloned :
    (RepoDirState.mk true false "").dirExists = true ∧
    (RepoDirState.mk true false "").gitConfigExists = false ∧
    addFromGitRepoAction ⟨true, false, ""⟩ "https://x/y" ≠ .clone ∧
    addFromGitRepoAction ⟨true, false, ""⟩ "https://x/y" = .failNotGitRepo := by
  refine ⟨rfl, rfl, ?_, rfl⟩
  decide

/-- C7 amended: `addFromGitRepo` takes the fresh-clone action exactly
when the pool directory does not exist (`directoryExists` is false); an
existing directory without the version-control marker takes the
not-a-git-repository error path instead. -/
theorem clone_iff_dir_absent (st : RepoDirState) (url : String) :
    addFromGitRepoAction st url = .clone ↔ st.dirExists = false := by
  obtain ⟨d, g, o⟩ := st
  cases d <;> cases g <;> simp [addFromGitRepoAction]
  split <;> simp

/-- C2 counterexample: an existing pool directory that lacks the
version-control marker fails (exit 1) but its error does NOT report
both origins — the claim's `reporting both origins` fails on this
branch. -/
theorem collision_without_marker_reports_no_origins :
    (RepoDirState.mk true false "https://a/x").dirExists = true ∧
    (RepoDirState.mk true false "https://a/x").gitConfigExists = false ∧
    (addFromGitRepoOutcome ⟨true, false, "https://a/x"⟩ "https://b/y" "repo").exitCode = 1 ∧
    ¬ reportsBothOrigins (addFromGitRepoOutcome ⟨true, false, "https://a/x"⟩ "https://b/y" "repo")
        "https://a/x" "https://b/y" := by
  refine ⟨rfl, rfl, rfl, ?_⟩
  decide

/-- C2 amended: acquiring into a pool name whose directory exists and
either lacks the version-control marker or records a differently
normalized origin fails with a descriptive error, exits with status 1
and performs no mutation; the error reports both origins exactly in the
marker-present (differing origin) case, while the marker-absent case
reports that the directory is not a git repository. -/
theorem collision_fails_without_mutation (st : RepoDirState) (url repoName : String)
    (hd : st.dirExists = true)
    (hcol : st.gitConfigExists = false ∨ normalizeUrl st.origin ≠ normalizeUrl url) :
    (addFromGitRepoOutcome st url repoName).exitCode = 1 ∧
    (addFromGitRepoOutcome st url repoName).mutates = false ∧
    (addFromGitRepoOutcome st url repoName).errLines ≠ [] ∧
    (st.gitConfigExists = true →
      reportsBothOrigins (addFromGitRepoOutcome st url repoName) st.origin url) := by
  cases hg : st.gitConfigExists with
  | false =>
    refine ⟨?_, ?_, ?_, ?_⟩ <;>
      simp [addFromGitRepoOutcome, addFromGitRepoAction, hd, hg]
  | true =>
    have hne : normalizeUrl st.origin ≠ normalizeUrl url := by
      rcases hcol with h | h
      · rw [hg] at h; exact absurd h (by simp)
      · exact h
    refine ⟨?_, ?_, ?_, fun _ => ?_⟩ <;>
      simp [addFromGitRepoOutcome, addFromGitRepoAction, hd, hg, hne, reportsBothOrigins]

/-- Witness for `collision_fails_without_mutation`: a clone of
`https://a/x` colliding with a request for `https://b/y`. -/
theorem collision_fails_without_mutation_witness :
    (addFromGitRepoOutcome ⟨true, true, "https://a/x"⟩ "https://b/y" "r").exitCode = 1 ∧
    (addFromGitRepoOutcome ⟨true, true, "https://a/x"⟩ "https://b/y" "r").mutates = false ∧
    reportsBothOrigins (addFromGitRepoOutcome ⟨true, true, "https://a/x"⟩ "https://b/y" "r")
      "https://a/x" "https://b/y" :=
  have h := collision_fails_without_mutation ⟨true, true, "https://a/x"⟩ "https://b/y" "r"
    rfl (Or.inr (by decide))
  ⟨h.1, h.2.1, h.2.2.2 rfl⟩

/-! C9 / C3: the configuration loader. -/

/-- C9 counterexample: a present field of the wrong shape is NOT
replaced by the field-level default — `{"agents": 5}` loads with
`agents = 5`, not `agents = ""` (JS `??` only defaults on
`null`/`undefined`). -/
theorem wrong_shape_field_not_defaulted :
    (loadBuddyConfigFrom (.parsed { agents := some (.jnum 5) })).agents = .jnum 5 ∧
    (loadBuddyConfigFrom (.parsed { agents := some (.jnum 5) })).agents ≠ .jstr "" := by
  refine ⟨rfl, ?_⟩
  decide

/-- C9 amended: each field of a successfully parsed configuration is
read independently, with the field-level default (`agents = ""`,
`commands = "commands"`, `context = "shared"`) applied exactly when that
field is missing or `null`; every present non-`null` value — of any
shape — is taken as given, and `extension`/`pools` pass through
unchanged (absent stays absent). -/
theorem loader_fields_independent_null_defaults (o : JObj) :
    ((o.agents = none ∨ o.agents = some .jnull) →
      (loadBuddyConfigFrom (.parsed o)).agents = .jstr "") ∧
    (∀ v, o.agents = some v → v ≠ .jnull → (loadBuddyConfigFrom (.parsed o)).agents = v) ∧
    ((o.commands = none ∨ o.commands = some .jnull) →
      (loadBuddyConfigFrom (.parsed o)).commands = .jstr "commands") ∧
    (∀ v, o.commands = some v → v ≠ .jnull → (loadBuddyConfigFrom (.parsed o)).commands = v) ∧
    ((o.context = none ∨ o.context = some .jnull) →
      (loadBuddyConfigFrom (.parsed o)).context = .jstr "shared") ∧
    (∀ v, o.context = some v → v ≠ .jnull → (loadBuddyConfigFrom (.parsed o)).context = v) ∧
    (loadBuddyConfigFrom (.parsed o)).extension = o.extension ∧
    (loadBuddyConfigFrom (.parsed o)).pools = o.pools := by
  refine ⟨?_, ?_, ?_, ?_, ?_, ?_, rfl, rfl⟩ <;>
    first
    | (rintro (h | h) <;> simp [loadBuddyConfigFrom, nullish, h])
    | (rintro v h hv
       cases v <;> simp [loadBuddyConfigFrom, nullish, h]
       exact absurd rfl hv)

/-- Witness for `loader_fields_independent_null_defaults`: a partial
configuration `{"agents": "custom", "context": null, "extension": "mdx"}`
keeps `agents`, defaults `commands` and `context`, and keeps
`extension`. -/
theorem loader_fields_witness :
    (loadBuddyConfigFrom (.parsed
      { agents := some (.jstr "custom"), context := some .jnull,
        extension := some (.jstr "mdx") })).agents = .jstr "custom" ∧
    (loadBuddyConfigFrom (.parsed
      { agents := some (.jstr "custom"), context := some .jnull,
        extension := some (.jstr "mdx") })).commands = .jstr "commands" ∧
    (loadBuddyConfigFrom (.parsed
      { agents := some (.jstr "custom"), context := some .jnull,
        extension := some (.jstr "mdx") })).context = .jstr "shared" ∧
    (loadBuddyConfigFrom (.parsed
      { agents := some (.jstr "custom"), context := some .jnull,
        extension := some (.jstr "mdx") })).extension = some (.jstr "mdx") :=
  have h := loader_fields_independent_null_defaults
    { agents := some (.jstr "custom"), context := some .jnull,
      extension := some (.jstr "mdx") }
  ⟨h.2.1 _ rfl (by decide), h.2.2.1 (Or.inl rfl), h.2.2.2.2.1 (Or.inr rfl),
   h.2.2.2.2.2.2.1⟩

/-! C5: layout of the default pool `local`. -/

/-- C5 counterexample: `add` writes an agent to
`<base>/pools/local/<name>.md`, directly in the local pool root — there
is no `agents` sub-directory. -/
theorem add_dest_not_in_agents_subdir :
    (getAddPaths "/home/u" "/cwd" "x" none).destPath = "/home/u/.buddy/pools/local/x.md" ∧
    (getAddPaths "/home/u" "/cwd" "x" none).destPath ≠ "/home/u/.buddy/pools/local/agents/x.md" := by
  refine ⟨?_, ?_⟩ <;> decide

set_option maxHeartbeats 1000000 in
/-- C5 amended: for the default pool `local`, `add` (all agent routes)
and `list` use the local pool root `<base>/pools/local` itself as the
agents root (no `agents` sub-directory), the command and shared-context
roots are the fixed sub-directories `commands` and `shared` under that
root, and `add`/`list`/`tool` use these fixed paths without loading any
configuration; `import`, however, resolves the `local` pool through its
loaded configuration like any other pool — with an absent resource the
defaults make its agents root the pool root itself. -/
theorem local_pool_layout (home cwd name p : String) (bp : Option String)
    (fs : String → Bool) (res : ConfigResource) (personal shr tcp : Bool) :
    (getAddPaths home cwd name bp).localAgentsPath =
      getBuddyBasePath home bp ++ "/pools/local" ∧
    (getAddPaths home cwd name bp).destPath =
      getBuddyBasePath home bp ++ "/pools/local/" ++ (name ++ ".md") ∧
    (getAddPathsWithConfig home cwd name personal bp).destPath =
      getBuddyBasePath home bp ++ "/pools/local/" ++ (name ++ ".md") ∧
    (addClaudeCommandPaths home cwd name).2 =
      getBuddyBasePath home none ++ "/pools/local/commands/" ++ (name ++ ".md") ∧
    (addClaudeSharedPaths home cwd name).2 =
      getBuddyBasePath home none ++ "/pools/local/shared/" ++ (name ++ ".md") ∧
    listPath home "local" res true shr =
      getBuddyBasePath home none ++ "/pools/local/commands" ∧
    listPath home "local" res false true =
      getBuddyBasePath home none ++ "/pools/local/shared" ∧
    listPath home "local" res false false =
      getBuddyBasePath home none ++ "/pools/local" ∧
    toolContext home res "local" =
      (getBuddyBasePath home none ++ "/pools/local/shared", none) ∧
    (getImportPaths home cwd fs res "local" p name tcp none).sourcePath =
      findAgentFile fs (pj (getBuddyBasePath home none ++ "/pools/local")
        (loadBuddyConfigFrom res).agents.toJs) p
        ((loadBuddyConfigFrom res).extension.map JVal.toJs) ∧
    (getImportPaths home cwd fs .absent "local" p name tcp none).sourcePath =
      findAgentFile fs (getBuddyBasePath home none ++ "/pools/local") p none := by
  have hb := getBuddyBasePath_ne_empty home bp
  have hb0 := getBuddyBasePath_ne_empty home none
  have P3 : ∀ b : String, b ≠ "" → pj3 b "pools" "local" = b ++ "/pools/local" := by
    intro b h
    rw [pj3_pools b "local" h (by decide), lfuse b "/pools/" "local" "/pools/local" (by decide)]
  have Pdest : ∀ (b n : String), b ≠ "" →
      pj (pj3 b "pools" "local") (n ++ ".md") = b ++ "/pools/local/" ++ (n ++ ".md") := by
    intro b n h
    rw [P3 b h,
      pj_of_ne _ _ (append_left_ne_empty _ _ h) (append_right_ne_empty _ _ (by decide)),
      lfuse b "/pools/local" "/" "/pools/local/" (by decide)]
  have P4 : ∀ (b sub fused : String), b ≠ "" → sub ≠ "" →
      "/pools/local" ++ "/" = "/pools/local/" →
      ("/pools/local/" ++ sub = fused) →
      pj4 b "pools" "local" sub = b ++ fused := by
    intro b sub fused h hsub _ hf
    unfold pj4
    rw [P3 b h, pj_of_ne _ _ (append_left_ne_empty _ _ h) hsub,
      lfuse b "/pools/local" "/" "/pools/local/" (by decide),
      lfuse b "/pools/local/" sub fused hf]
  have P4c : ∀ b : String, b ≠ "" →
      pj4 b "pools" "local" "commands" = b ++ "/pools/local/commands" :=
    fun b h => P4 b "commands" "/pools/local/commands" h (by decide) (by decide) (by decide)
  have P4s : ∀ b : String, b ≠ "" →
      pj4 b "pools" "local" "shared" = b ++ "/pools/local/shared" :=
    fun b h => P4 b "shared" "/pools/local/shared" h (by decide) (by decide) (by decide)
  have Pdest4 : ∀ (b sub subsl n : String), b ≠ "" → sub ≠ "" →
      pj4 b "pools" "local" sub = b ++ ("/pools/local/" ++ sub) →
      (("/pools/local/" ++ sub) ++ "/" = subsl) →
      pj (pj4 b "pools" "local" sub) (n ++ ".md") = b ++ subsl ++ (n ++ ".md") := by
    intro b sub subsl n h hsub h4 hsl
    rw [show pj4 b "pools" "local" sub = b ++ ("/pools/local/" ++ sub) from h4,
      pj_of_ne _ _ (append_left_ne_empty _ _ h) (append_right_ne_empty _ _ (by decide)),
      lfuse b ("/pools/local/" ++ sub) "/" subsl hsl]
  refine ⟨P3 _ hb, Pdest _ _ hb, Pdest _ _ hb, ?_, ?_, ?_, ?_, ?_, ?_, ?_, ?_⟩
  · show pj (pj4 (getBuddyBasePath home none) "pools" "local" "commands") (name ++ ".md") = _
    rw [Pdest4 _ "commands" "/pools/local/commands/" name hb0 (by decide)
      (by rw [P4c _ hb0]; exact congrArg (fun t => getBuddyBasePath home none ++ t) (by decide))
      (by decide)]
  · show pj (pj4 (getBuddyBasePath home none) "pools" "local" "shared") (name ++ ".md") = _
    rw [Pdest4 _ "shared" "/pools/local/shared/" name hb0 (by decide)
      (by rw [P4s _ hb0]; exact congrArg (fun t => getBuddyBasePath home none ++ t) (by decide))
      (by decide)]
  · show pj (pj3 (getBuddyBasePath home none) "pools" "local") "commands" = _
    rw [P3 _ hb0, pj_of_ne _ _ (append_left_ne_empty _ _ hb0) (by decide),
      lfuse _ "/pools/local" "/" "/pools/local/" (by decide),
      lfuse _ "/pools/local/" "commands" "/pools/local/commands" (by decide)]
  · show pj (pj3 (getBuddyBasePath home none) "pools" "local") "shared" = _
    rw [P3 _ hb0, pj_of_ne _ _ (append_left_ne_empty _ _ hb0) (by decide),
      lfuse _ "/pools/local" "/" "/pools/local/" (by decide),
      lfuse _ "/pools/local/" "shared" "/pools/local/shared" (by decide)]
  · show pj3 (getBuddyBasePath home none) "pools" "local" = _
    exact P3 _ hb0
  · show (pj4 (getBuddyBasePath home none) "pools" "local" "shared",
      (none : Option JVal)) = _
    rw [P4s _ hb0]
  · show findAgentFile fs (pj (pj3 (getBuddyBasePath home none) "pools" "local")
      (loadBuddyConfigFrom res).agents.toJs) p
      ((loadBuddyConfigFrom res).extension.map JVal.toJs) = _
    rw [P3 _ hb0]
  · show findAgentFile fs (pj (pj3 (getBuddyBasePath home none) "pools" "local")
      (JVal.jstr "").toJs) p none = _
    rw [P3 _ hb0, show (JVal.jstr "").toJs = "" from rfl,
      pj_empty_right _ (append_left_ne_empty _ _ hb0)]

/-! C10: import destination naming. -/

/-- C10: the destination of an import is always `<leafName>.md` in the
destination directory selected by the flags (`~/.claude/agents/`,
`<cwd>/.claude/agents/`, or the current directory) — it does not depend
on the filesystem or on the pool's configuration, hence not on which
fallback candidate (`.md`, `.txt`, configured extension, or bare) the
source actually resolved to. -/
theorem import_dest_always_md (home cwd : String) (hh : home ≠ "") (hc : cwd ≠ "")
    (fs fs' : String → Bool) (res res' : ConfigResource)
    (repoName agentPath filename : String) (tcp tpp : Bool) (bp : Option String) :
    (getImportPathsWithConfig home cwd fs res repoName agentPath filename tcp tpp bp).destPath =
      (getImportPathsWithConfig home cwd fs' res' repoName agentPath filename tcp tpp bp).destPath ∧
    (getImportPaths home cwd fs res repoName agentPath filename tcp bp).destPath =
      (getImportPaths home cwd fs' res' repoName agentPath filename tcp bp).destPath ∧
    (getImportPathsWithConfig home cwd fs res repoName agentPath filename tcp tpp bp).destPath =
      (if tpp then home ++ "/.claude/agents/" ++ (filename ++ ".md")
       else if tcp then cwd ++ "/.claude/agents/" ++ (filename ++ ".md")
       else cwd ++ "/" ++ (filename ++ ".md")) ∧
    (getImportPaths home cwd fs res repoName agentPath filename tcp bp).destPath =
      (if tcp then cwd ++ "/.claude/agents/" ++ (filename ++ ".md")
       else cwd ++ "/" ++ (filename ++ ".md")) := by
  have PCA : ∀ (b n : String), b ≠ "" →
      pj4 b ".claude" "agents" (n ++ ".md") = b ++ "/.claude/agents/" ++ (n ++ ".md") := by
    intro b n h
    unfold pj4 pj3
    rw [pj_of_ne b ".claude" h (by decide),
      pj_of_ne _ "agents" (append_right_ne_empty _ _ (by decide)) (by decide),
      pj_of_ne _ _ (append_right_ne_empty _ _ (by decide)) (append_right_ne_empty _ _ (by decide)),
      lfuse b "/" ".claude" "/.claude" (by decide),
      lfuse b "/.claude" "/" "/.claude/" (by decide),
      lfuse b "/.claude/" "agents" "/.claude/agents" (by decide),
      lfuse b "/.claude/agents" "/" "/.claude/agents/" (by decide)]
  refine ⟨rfl, rfl, ?_, ?_⟩
  · cases tpp with
    | true =>
      show pj4 home ".claude" "agents" (filename ++ ".md") = _
      rw [PCA home filename hh]
      simp
    | false =>
      cases tcp with
      | true =>
        show pj4 cwd ".claude" "agents" (filename ++ ".md") = _
        rw [PCA cwd filename hc]
        simp
      | false =>
        show pj cwd (filename ++ ".md") = _
        rw [pj_of_ne _ _ hc (append_right_ne_empty _ _ (by decide))]
        simp
  · cases tcp with
    | true =>
      show pj4 cwd ".claude" "agents" (filename ++ ".md") = _
      rw [PCA cwd filename hc]
      simp
    | false =>
      show pj cwd (filename ++ ".md") = _
      rw [pj_of_ne _ _ hc (append_right_ne_empty _ _ (by decide))]
      simp

/-- Witness for `import_dest_always_md`: with home `/h` and cwd `/c`, a
personal import lands in `/h/.claude/agents/f.md` and a plain import in
`/c/f.md`. -/
theorem import_dest_always_md_witness :
    (getImportPathsWithConfig "/h" "/c" (fun _ => false) .absent "r" "a" "f"
      false true none).destPath = "/h" ++ "/.claude/agents/" ++ ("f" ++ ".md") ∧
    (getImportPaths "/h" "/c" (fun _ => false) .absent "r" "a" "f"
      false none).destPath = "/c" ++ "/" ++ ("f" ++ ".md") := by
  have h := import_dest_always_md "/h" "/c" (by decide) (by decide) (fun _ => false)
    (fun _ => true) .absent .malformed "r" "a" "f" false true none
  exact ⟨by simpa using h.2.2.1, by simpa using h.2.2.2⟩

/-! C8: symbolic reference parsing. -/

theorem string_mk_data (s : String) : String.mk s.data = s := rfl

theorem jsSplit_no_sep (s : String) (h : '/' ∉ s.data) : jsSplit '/' s = [s] := by
  unfold jsSplit
  have hsplit : s.data.splitOn '/' = [s.data] := by
    simp only [List.splitOn]
    exact List.splitOnP_eq_single _ _
      (fun x hx => by simp only [beq_iff_eq]; exact fun he => h (he ▸ hx))
  rw [hsplit, List.map_cons, List.map_nil, string_mk_data]

theorem jsSplit_sep_append (pool rest : String) (h : '/' ∉ pool.data) :
    jsSplit '/' (pool ++ "/" ++ rest) = pool :: jsSplit '/' rest := by
  unfold jsSplit
  have hdata : (pool ++ "/" ++ rest).data = pool.data ++ '/' :: rest.data := by
    rw [String.data_append, String.data_append]
    simp [show ("/" : String).data = ['/'] from rfl]
  rw [hdata]
  have hsplit : (pool.data ++ '/' :: rest.data).splitOn '/' =
      pool.data :: rest.data.splitOn '/' := by
    simp only [List.splitOn]
    exact List.splitOnP_first _ _
      (fun x hx => by simp only [beq_iff_eq]; exact fun he => h (he ▸ hx))
      '/' (by simp) rest.data
  rw [hsplit, List.map_cons, string_mk_data]

theorem jsSplit_ne_nil (s : String) : jsSplit '/' s ≠ [] := by
  unfold jsSplit
  simp only [List.splitOn, ne_eq, List.map_eq_nil_iff]
  exact List.splitOnP_ne_nil _ _

theorem jsJoin_data : ∀ ls : List (List Char),
    (jsJoin "/" (ls.map String.mk)).data = List.intercalate [ '/' ] ls
  | [] => by simp [jsJoin, List.intercalate]
  | [a] => by simp [jsJoin, List.intercalate]
  | a :: b :: t => by
    have ih := jsJoin_data (b :: t)
    simp only [List.map_cons] at ih ⊢
    rw [show jsJoin "/" (String.mk a :: String.mk b :: t.map String.mk) =
        String.mk a ++ "/" ++ jsJoin "/" (String.mk b :: t.map String.mk) from rfl]
    rw [String.data_append, String.data_append, ih]
    simp [List.intercalate, show ("/" : String).data = ['/'] from rfl]

theorem jsJoin_jsSplit (s : String) : jsJoin "/" (jsSplit '/' s) = s := by
  apply String.ext
  rw [show jsSplit '/' s = (s.data.splitOn '/').map String.mk from rfl]
  rw [jsJoin_data (s.data.splitOn '/')]
  exact List.intercalate_splitOn s.data '/'

/-- C8 counterexample: a reference string with no `/` separator keeps
the whole string as the pool name — it does not default to `local`. -/
theorem no_separator_pool_not_local :
    (parseImportSource "myagent").repoName = "myagent" ∧
    (parseImportSource "myagent").repoName ≠ "local" ∧
    (parseImportSource "myagent").agentPath = "" := by
  refine ⟨?_, ?_, ?_⟩ <;> decide

/-- C8 amended: parsing a symbolic reference: the first `/`-separated
segment is the pool name, with fallback `unknown-repo` when it is empty
(there is no `local` default: a string with no separator uses the whole
string as the pool name and has an empty relative path); the remaining
segments joined by `/` form the relative path; the leaf name is the
last segment (fallback `unknown-agent` when empty), independent of the
pool segment. -/
theorem parse_source_segments :
    (∀ s : String, s ≠ "" → '/' ∉ s.data → parseImportSource s = ⟨s, "", s⟩) ∧
    (∀ pool rest : String, '/' ∉ pool.data →
      (parseImportSource (pool ++ "/" ++ rest)).repoName =
        (if pool = "" then "unknown-repo" else pool) ∧
      (parseImportSource (pool ++ "/" ++ rest)).agentPath = rest ∧
      (parseImportSource (pool ++ "/" ++ rest)).filename =
        (parseImportSource rest).filename) ∧
    parseImportSource "" = ⟨"unknown-repo", "", "unknown-agent"⟩ := by
  refine ⟨?_, ?_, by decide⟩
  · intro s hs h
    simp only [parseImportSource, jsSplit_no_sep s h, List.head?_cons, List.drop_succ_cons,
      List.drop_nil, List.getLast?_singleton, hs, if_false, jsJoin]
  · intro pool rest h
    have hsplit := jsSplit_sep_append pool rest h
    have hne := jsSplit_ne_nil rest
    refine ⟨?_, ?_, ?_⟩
    · simp only [parseImportSource, hsplit, List.head?_cons]
    · simp only [parseImportSource, hsplit, List.drop_succ_cons, List.drop_zero]
      exact jsJoin_jsSplit rest
    · simp only [parseImportSource, hsplit]
      obtain ⟨x, xs, hx⟩ := List.exists_cons_of_ne_nil hne
      rw [hx, List.getLast?_cons_cons]

/-- Witness for `parse_source_segments`: `alpha` parses to pool
`alpha` (not `local`), and `repo/a/b` parses to pool `repo` with
relative path `a/b`. -/
theorem parse_source_segments_witness :
    parseImportSource "alpha" = ⟨"alpha", "", "alpha"⟩ ∧
    (parseImportSource ("repo" ++ "/" ++ "a/b")).repoName =
      (if "repo" = "" then "unknown-repo" else "repo") ∧
    (parseImportSource ("repo" ++ "/" ++ "a/b")).agentPath = "a/b" :=
  ⟨parse_source_segments.1 "alpha" (by decide) (by decide),
   (parse_source_segments.2.1 "repo" "a/b" (by decide)).1,
   (parse_source_segments.2.1 "repo" "a/b" (by decide)).2.1⟩

/-! C4: not-found reporting. -/

theorem ldata_fuse (x y z : String) (h : x ++ y = z) (t : List Char) :
    x.data ++ (y.data ++ t) = z.data ++ t := by
  subst h
  rw [String.data_append, List.append_assoc]

/-- C4 counterexample: when import resolution finds none of the
candidates, `importLocalAgent` prints the `Tried:` message and returns —
the process terminates with exit status 0, not 1. -/
theorem import_not_found_exits_zero :
    (getImportPaths "/h" "/c" (fun _ => false) .absent "local" "x" "x" false none).sourcePath
      = none ∧
    (importLocalAgentRun "/h" "/c" (fun _ => false) .absent "local" "x" "x" false true).exitCode
      = 0 ∧
    (importLocalAgentRun "/h" "/c" (fun _ => false) .absent "local" "x" "x" false true).exitCode
      ≠ 1 := by
  refine ⟨rfl, rfl, ?_⟩
  rw [show (importLocalAgentRun "/h" "/c" (fun _ => false) .absent "local" "x" "x"
    false true).exitCode = 0 from rfl]
  decide

/-- C4 amended: when artifact resolution finds none of the candidates,
both flows report every tried candidate, in the order tried, by name
relative to the search context (import: relative to the pool root via
the configured agents directory; tool: relative to the context
directory), but only the tool flow exits with status 1 — the import
flow prints its one message and terminates with exit status 0 without
copying anything. -/
theorem not_found_reporting :
    (∀ (aCfg : JVal) (ap : String) (ext : Option JVal),
      triedMessage aCfg ap ext =
        "✗ Agent file not found. Tried: " ++
          jsJoin ", " (triedNames (if aCfg.truthy then pj aCfg.toJs ap else ap)
            (ext.map JVal.toJs))) ∧
    (∀ (repoPath s ap : String) (e : Option String), repoPath ≠ "" → ap ≠ "" →
      candidates (pj repoPath s) ap e =
        (triedNames (if s = "" then ap else pj s ap) e).map
          (fun r => repoPath ++ "/" ++ r)) ∧
    (∀ (home cwd : String) (fs : String → Bool) (res : ConfigResource)
        (rn ap fn : String) (tcp ov : Bool),
      (getImportPaths home cwd fs res rn ap fn tcp none).sourcePath = none →
      importLocalAgentRun home cwd fs res rn ap fn tcp ov =
        ⟨[triedMessage (loadBuddyConfigFrom res).agents ap (loadBuddyConfigFrom res).extension],
         [], 0, none⟩) ∧
    (∀ (home : String) (fs : String → Bool) (res : ConfigResource)
        (read : String → String) (source : String),
      findAgentFile fs (toolContext home res (parseImportSource source).repoName).1
          (parseImportSource source).agentPath
          ((toolContext home res (parseImportSource source).repoName).2.map JVal.toJs) = none →
      toolCommandRun home fs res read source =
        ⟨some ("Context file not found. Tried: " ++
          jsJoin ", " (triedNames (parseImportSource source).agentPath
            ((toolContext home res (parseImportSource source).repoName).2.map JVal.toJs))),
         none, 1⟩) := by
  refine ⟨?_, ?_, ?_, ?_⟩
  · intro aCfg ap ext
    cases ext with
    | some e =>
      simp only [triedMessage, Option.map_some, triedNames, jsJoin]
      apply String.ext
      simp [String.data_append, List.append_assoc]
    | none =>
      simp only [triedMessage, Option.map_none, triedNames, jsJoin]
      apply String.ext
      simp only [String.data_append, List.append_assoc]
      rw [ldata_fuse ".md" ", " ".md, " (by decide) _,
        ldata_fuse ".txt" ", " ".txt, " (by decide) _]
  · intro repoPath s ap e h hap
    by_cases hs : s = ""
    · subst hs
      rw [pj_empty_right _ h]
      cases e with
      | some x =>
        simp only [candidates, triedNames, if_pos rfl, List.map_cons, List.map_nil,
          List.cons.injEq, and_true]
        constructor <;> (apply String.ext; simp [String.data_append, List.append_assoc])
      | none =>
        simp only [candidates, triedNames, if_pos rfl, List.map_cons, List.map_nil,
          List.cons.injEq, and_true]
        refine ⟨?_, ?_, ?_⟩ <;>
          (apply String.ext; simp [String.data_append, List.append_assoc])
    · rw [pj_of_ne repoPath s h hs]
      cases e with
      | some x =>
        simp only [candidates, triedNames, if_neg hs, pj_of_ne s ap hs hap,
          List.map_cons, List.map_nil, List.cons.injEq, and_true]
        constructor <;> (apply String.ext; simp [String.data_append, List.append_assoc])
      | none =>
        simp only [candidates, triedNames, if_neg hs, pj_of_ne s ap hs hap,
          List.map_cons, List.map_nil, List.cons.injEq, and_true]
        refine ⟨?_, ?_, ?_⟩ <;>
          (apply String.ext; simp [String.data_append, List.append_assoc])
  · intro home cwd fs res rn ap fn tcp ov h
    simp only [importLocalAgentRun, h]
    rfl
  · intro home fs res read source h
    cases hctx : (toolContext home res (parseImportSource source).repoName).2 with
    | some e =>
      simp only [toolCommandRun, hctx] at h ⊢
      simp only [h, hctx, Option.map_some, triedNames, jsJoin]
      refine congrArg (fun m => ToolOutcome.mk (some m) none 1) ?_
      apply String.ext
      simp [String.data_append, List.append_assoc]
    | none =>
      simp only [toolCommandRun, hctx] at h ⊢
      simp only [h, hctx, Option.map_none, triedNames, jsJoin]
      refine congrArg (fun m => ToolOutcome.mk (some m) none 1) ?_
      apply String.ext
      simp only [String.data_append, List.append_assoc]
      rw [ldata_fuse ".md" ", " ".md, " (by decide) _,
        ldata_fuse ".txt" ", " ".txt, " (by decide) _]

/-- Witness for `not_found_reporting`: on an empty filesystem, import
of `local/x` reports its tried list and terminates with exit 0, the
tool flow reports its tried list and exits 1, and the printed names of
a configured-extension search under agents directory `sub` correspond
one-to-one (in order) to the tried candidates. -/
theorem not_found_reporting_witness :
    importLocalAgentRun "/h" "/c" (fun _ => false) .absent "local" "x" "x" false true =
      ⟨[triedMessage (loadBuddyConfigFrom .absent).agents "x"
          (loadBuddyConfigFrom .absent).extension], [], 0, none⟩ ∧
    toolCommandRun "/h" (fun _ => false) .absent (fun _ => "") "local/x" =
      ⟨some ("Context file not found. Tried: " ++
        jsJoin ", " (triedNames (parseImportSource "local/x").agentPath
          ((toolContext "/h" .absent (parseImportSource "local/x").repoName).2.map JVal.toJs))),
       none, 1⟩ ∧
    candidates (pj "/h/.buddy/pools/local" "sub") "x" (some "mdx") =
      (triedNames (if "sub" = "" then "x" else pj "sub" "x") (some "mdx")).map
        (fun r => "/h/.buddy/pools/local" ++ "/" ++ r) :=
  ⟨not_found_reporting.2.2.1 "/h" "/c" (fun _ => false) .absent "local" "x" "x" false true rfl,
   not_found_reporting.2.2.2 "/h" (fun _ => false) .absent (fun _ => "") "local/x" rfl,
   not_found_reporting.2.1 "/h/.buddy/pools/local" "sub" "x" (some "mdx")
     (by decide) (by decide)⟩

end Buddy
